import Mathlib

/-!
# Verification of the XLIFF auto-translator (`src/translate.py`)

A shallow embedding of the XLIFF translation pipeline of `translate.py`:
the string analyzer (`analyze_strings`), locale inference
(`extract_language_from_filename`), the batch translator
(`translate_batch` and the batch loop of `process_xlf_file`), the
write-gate / target-creation logic, and the CDATA-preserving serializer
(`write_with_cdata.format_element`).

XML elements are modelled by their tag and optional text; a translation
unit (`trans-unit`) by its optional `resname` attribute, its optional
`source` child and its list of `target` children in document order.
Python string truthiness (`if s:`), `str.isspace`, `str.strip` and the
`in` operator on strings are modelled explicitly on the character lists
of the strings involved (whitespace restricted to the ASCII whitespace
characters, which is what the inputs of interest contain).
-/

namespace XlfTranslate

/-- Python `str.isspace` membership test for a single character
(ASCII whitespace; `str.isspace` also accepts some Unicode space, which
no input in this development uses). -/
def pyIsSpaceChar (c : Char) : Bool :=
  c = ' ' || c = '\t' || c = '\n' || c = '\r' || c = '\x0b' || c = '\x0c'

/-- Python `s.isspace()`: true iff `s` is non-empty and all characters are
whitespace. -/
def pyIsSpace (s : String) : Bool :=
  !s.toList.isEmpty && s.toList.all pyIsSpaceChar

/-- Python truthiness of an optional string (`if x:` where `x` is
`None` or a `str`): false for `None` and for the empty string. -/
def truthyOpt : Option String → Bool
  | none => false
  | some s => !s.toList.isEmpty

/-- Python `c in s` for a character and a string. -/
def pyInStr (c : Char) (s : String) : Bool := s.toList.contains c

/-- Python `s.split(sep)` for a single-character separator, on character
lists: always returns at least one (possibly empty) part. -/
def splitOnChar (sep : Char) : List Char → List (List Char)
  | [] => [[]]
  | x :: r =>
    let rest := splitOnChar sep r
    if x = sep then [] :: rest
    else
      match rest with
      | h :: t => (x :: h) :: t
      | [] => [[x]]

/-- Python `s.split(sep)` for a single-character separator, on strings. -/
def pySplit (sep : Char) (s : String) : List String :=
  (splitOnChar sep s.toList).map List.asString

/-- An XML element as the pipeline observes it: its (possibly namespaced)
tag and its optional text. -/
structure Elem where
  tag : String
  text : Option String
deriving Repr, DecidableEq

/-- A `trans-unit` element: its optional `resname` attribute, its
optional first `source` child, and its `target` children in document
order (`find` returns the first of them). -/
structure TransUnit where
  resname : Option String
  source : Option Elem
  targets : List Elem
deriving Repr, DecidableEq

/-- The condition of `translate.py` line 40/122:
`target is None or not target.text or target.text.isspace()`, evaluated
on a unit's first `target` child. -/
def unitUntranslated (u : TransUnit) : Bool :=
  match u.targets.head? with
  | none => true
  | some t =>
    match t.text with
    | none => true
    | some s => s.toList.isEmpty || pyIsSpace s

/-- The statistics record returned by `analyze_strings`. -/
structure Stats where
  total : Nat
  untranslated : Nat
  translated : Nat
deriving Repr, DecidableEq

/-- One iteration of the loop of `analyze_strings` (lines 35-43): a unit
is counted only when its `resname` attribute is present and non-empty
(Python truthiness of `trans_unit.get('resname')`). -/
def analyzeStep (st : Stats) (u : TransUnit) : Stats :=
  if truthyOpt u.resname then
    if unitUntranslated u then
      { st with total := st.total + 1, untranslated := st.untranslated + 1 }
    else
      { st with total := st.total + 1, translated := st.translated + 1 }
  else st

/-- `analyze_strings` (lines 26-49) over the document's `trans-unit`
elements in document order. -/
def analyze_strings (units : List TransUnit) : Stats :=
  units.foldl analyzeStep ⟨0, 0, 0⟩

/-- Index of the last occurrence of a character in a list
(Python `str.rfind`, returning `none` instead of `-1`). -/
def rfindIdx (c : Char) : List Char → Option Nat
  | [] => none
  | x :: r =>
    match rfindIdx c r with
    | some i => some (i + 1)
    | none => if x = c then some 0 else none

/-- `pathlib.PurePath.stem` on a path's final component: drop the last
`.`-suffix when the last dot sits strictly inside the name (not at
index 0 and not in final position). -/
def pathStemList (name : List Char) : List Char :=
  match rfindIdx '.' name with
  | some i => if 0 < i && i < name.length - 1 then name.take i else name
  | none => name

/-- The final path component of a filename (the part after the last
`/`). -/
def pathName (f : String) : String := (pySplit (Char.ofNat 47) f).getLastD ""

/-- `Path(filename).stem` as a string. -/
def pathStem (f : String) : String := (pathStemList (pathName f).toList).asString

/-- `extract_language_from_filename` (lines 19-24): split the filename
stem on dots and return the last part when there are at least two. -/
def extract_language_from_filename (filename : String) : Option String :=
  let parts := pySplit (Char.ofNat 46) (pathStem filename)
  if 2 ≤ parts.length then some (parts.getLastD "") else none

/-- Target-language resolution of `process_xlf_file` lines 79-82: use the
explicit language when truthy, otherwise extract from the filename;
`none` models the `ValueError` raised when the result is falsy. -/
def resolve_lang (filename : String) (langOpt : Option String) : Option String :=
  let lang := if truthyOpt langOpt then langOpt else extract_language_from_filename filename
  match lang with
  | some s => if s.toList.isEmpty then none else some s
  | none => none

/-- The namespaced tag of the `target` element created by
`ET.SubElement` at line 137. -/
def nsTargetTag : String := "{urn:oasis:names:tc:xliff:document:1.2}target"

/-- Worklist eligibility, lines 112-124: the unit's `source` child exists
with truthy text, and either `force` is set or the unit is untranslated. -/
def eligibleForWorklist (force : Bool) (u : TransUnit) : Bool :=
  match u.source with
  | some srcEl =>
    match srcEl.text with
    | some txt => !txt.toList.isEmpty && (force || unitUntranslated u)
    | none => false
  | none => false

/-- The worklist of `(unit, source text)` pairs built by lines 108-124,
in document order. -/
def worklist (force : Bool) (units : List TransUnit) : List (TransUnit × String) :=
  units.filterMap fun u =>
    match u.source with
    | some srcEl =>
      match srcEl.text with
      | some txt =>
        if !txt.toList.isEmpty && (force || unitUntranslated u) then some (u, txt) else none
      | none => none
    | none => none

/-- The write gate of line 139:
`not target.text or target.text.isspace() or force`. -/
def gateAllows (force : Bool) (text : Option String) : Bool :=
  (match text with
   | none => true
   | some s => s.toList.isEmpty || pyIsSpace s) || force

/-- Lines 140-143: wrap a committed translation in a CDATA marker string
when it contains an angle bracket. -/
def wrapCdataIfMarkup (tr : String) : String :=
  if pyInStr '<' tr || pyInStr '>' tr then "<![CDATA[" ++ tr ++ "]]>" else tr

/-- Lines 133-143, one `(unit, translation)` pair of the zip: find the
unit's first `target` child; if there is none, create and append a fresh
namespaced `target` (with no text) first; then evaluate the write gate on
that element's text and commit the (possibly CDATA-wrapped) translation
when the gate allows. -/
def commitUnit (force : Bool) (u : TransUnit) (tr : String) : TransUnit :=
  match u.targets with
  | [] =>
    if gateAllows force none then
      { u with targets := [⟨nsTargetTag, some (wrapCdataIfMarkup tr)⟩] }
    else
      { u with targets := [⟨nsTargetTag, none⟩] }
  | t :: rest =>
    if gateAllows force t.text then
      { u with targets := { t with text := some (wrapCdataIfMarkup tr) } :: rest }
    else u

/-- Line 133: `zip(batch_units, translations)` commits pairwise; units of
the batch beyond the number of returned lines are left unchanged, and
returned lines beyond the number of units are discarded. -/
def commitPairs (force : Bool) (pairs : List (TransUnit × String)) (trs : List String) :
    List TransUnit :=
  ((pairs.zip trs).map fun p => commitUnit force p.1.1 p.2) ++
    (pairs.drop trs.length).map (·.1)

/-- Python `s.strip()` restricted to ASCII whitespace. -/
def pyStrip (s : String) : String :=
  (((s.toList.dropWhile pyIsSpaceChar).reverse.dropWhile pyIsSpaceChar).reverse).asString

/-- `translate_batch` (lines 51-69): the oracle abstracts the chat
completion call, returning the raw response content, or `none` when the
call raises; the response is stripped and split on newlines, with no
validation of the number of lines. -/
def translate_batch (oracle : List String → Option String) (texts : List String) :
    Option (List String) :=
  match oracle texts with
  | none => none
  | some content => some (pySplit (Char.ofNat 10) (pyStrip content))

/-- `BATCH_SIZE` (line 17). -/
def BATCH_SIZE : Nat := 10

/-- Consecutive chunks of size `n` (`range(0, len, n)` slicing,
lines 127-129), with the list length as recursion fuel: each step
consumes at least one element when `n > 0`. -/
def chunkListAux (n : Nat) (fuel : Nat) (l : List α) : List (List α) :=
  match fuel with
  | 0 => []
  | f + 1 =>
    match l with
    | [] => []
    | x :: r => (x :: r).take n :: chunkListAux n f ((x :: r).drop n)

/-- Consecutive chunks of size `n` of a list. -/
def chunkList (n : Nat) (l : List α) : List (List α) := chunkListAux n l.length l

/-- The chunk lengths produced by slicing a list of length `len` into
chunks of size `n`. -/
def chunkLensAux (n : Nat) (fuel : Nat) (len : Nat) : List Nat :=
  match fuel with
  | 0 => []
  | f + 1 =>
    match len with
    | 0 => []
    | m + 1 => min n (m + 1) :: chunkLensAux n f (m + 1 - n)

/-- Chunk lengths for a list of length `len`. -/
def chunkLens (n len : Nat) : List Nat := chunkLensAux n len len

/-- One batch iteration (lines 131-143): call the oracle on the chunk's
source texts; on failure (`translations` is `None`) or an empty list
(`if translations:`), leave every unit of the chunk unchanged, otherwise
commit pairwise. -/
def runChunk (force : Bool) (oracle : List String → Option String)
    (chunk : List (TransUnit × String)) : List TransUnit :=
  match translate_batch oracle (chunk.map (·.2)) with
  | none => chunk.map (·.1)
  | some trs => if trs.isEmpty then chunk.map (·.1) else commitPairs force chunk trs

/-- The batch loop of lines 127-146 over the whole worklist: every chunk
is processed in order, one oracle call each, regardless of earlier
failures; returns the worklist's units after commits together with the
number of oracle calls made. -/
def runBatches (force : Bool) (oracle : List String → Option String)
    (wl : List (TransUnit × String)) : List TransUnit × Nat :=
  let cs := chunkList BATCH_SIZE wl
  ((cs.map (runChunk force oracle)).flatten, cs.length)

/-- The source texts sent to the oracle, one request per chunk in
worklist order. -/
def oracleRequests (wl : List (TransUnit × String)) : List (List String) :=
  (chunkList BATCH_SIZE wl).map (·.map (·.2))

/-- Rebuild the document after the batch loop: the in-place mutation of
the tree replaces each worklist-eligible unit by its committed version,
in order, and leaves every other unit untouched. -/
def reassemble (force : Bool) : List TransUnit → List TransUnit → List TransUnit
  | [], _ => []
  | u :: us, ts =>
    if eligibleForWorklist force u then
      match ts with
      | t :: ts' => t :: reassemble force us ts'
      | [] => u :: reassemble force us []
    else
      u :: reassemble force us ts

/-- Outcome of `process_xlf_file`: `langError` models the `ValueError`
of line 82 (caught at line 208, `sys.exit(1)`), `earlyStop` the return of
lines 91-93, `cancelled` the return of lines 100-103, and `completed`
carries the mutated document. -/
inductive RunResult where
  | langError
  | earlyStop
  | cancelled
  | completed (units : List TransUnit)
deriving Repr, DecidableEq

/-- Process exit code for each outcome: exceptions reach the handler of
lines 208-210 (`sys.exit(1)`); every other path returns normally. -/
def runExitCode : RunResult → Nat
  | .langError => 1
  | _ => 0

/-- `process_xlf_file` (lines 71-146) up to serialization: resolve the
language, analyze, stop early when nothing is untranslated and `force`
is unset, honour the confirmation prompt, then run the batch loop.
Returns the outcome and the number of oracle calls made. -/
def process_xlf_file (filename : String) (langOpt : Option String) (force : Bool)
    (confirm : Bool) (oracle : List String → Option String)
    (doc : List TransUnit) : RunResult × Nat :=
  match resolve_lang filename langOpt with
  | none => (.langError, 0)
  | some _ =>
    let stats := analyze_strings doc
    if stats.untranslated = 0 && !force then (.earlyStop, 0)
    else if !confirm then (.cancelled, 0)
    else
      let wl := worklist force doc
      let res := runBatches force oracle wl
      (.completed (reassemble force doc res.1), res.2)

/-- Recognize one of the five standard XML character entity references
at the head of a list, returning the decoded character and the rest. -/
def matchEntity : List Char → Option (Char × List Char)
  | 'a' :: 'm' :: 'p' :: ';' :: r => some ('&', r)
  | 'l' :: 't' :: ';' :: r => some ('<', r)
  | 'g' :: 't' :: ';' :: r => some ('>', r)
  | 'q' :: 'u' :: 'o' :: 't' :: ';' :: r => some ('"', r)
  | 'a' :: 'p' :: 'o' :: 's' :: ';' :: r => some (Char.ofNat 39, r)
  | _ => none

/-- `html.unescape` as used at line 178, restricted to the five standard
XML character entities (the inputs of this development contain no other
entity references; on text without `&` the real `html.unescape` is also
the identity). The fuel argument (the list length at the top-level call)
only forces termination: every step consumes at least one character, so
the fuel never runs out. -/
def unescapeAux (fuel : Nat) (l : List Char) : List Char :=
  match fuel with
  | 0 => l
  | f + 1 =>
    match l with
    | [] => []
    | c :: r =>
      if c = '&' then
        match matchEntity r with
        | some (d, r2) => d :: unescapeAux f r2
        | none => c :: unescapeAux f r
      else c :: unescapeAux f r

/-- `html.unescape` on character lists. -/
def unescapeList (l : List Char) : List Char := unescapeAux l.length l

/-- `html.unescape` on strings. -/
def unescape (s : String) : String := (unescapeList s.toList).asString

/-- The target-text branch of `write_with_cdata.format_element`
(lines 174-182): unescape the element's text, then emit a CDATA block
when the result contains an angle bracket, the bare text otherwise. -/
def formatTargetText (s : String) : String :=
  if pyInStr '<' (unescape s) || pyInStr '>' (unescape s) then
    "<![CDATA[" ++ unescape s ++ "]]>"
  else unescape s

/-- `format_element` (lines 159-195) specialized to a `target` element
with no attributes and no children: the namespace prefix of the tag is
stripped, truthy text goes through the target branch of lines 174-182. -/
def formatTargetElement (text : Option String) : String :=
  "<target>" ++
    (match text with
     | some s => if s.toList.isEmpty then "" else formatTargetText s
     | none => "") ++
    "</target>"

/-- Whether a character list contains the CDATA terminator `]]>`. -/
def hasCDEnd : List Char → Bool
  | [] => false
  | c :: r =>
    if c = ']' then
      match r with
      | ']' :: '>' :: _ => true
      | _ => hasCDEnd r
    else hasCDEnd r

/-- Modelled from the spec: the re-parse step of the round-trip property
(serialized output is read back with `ET.parse`). This models how a
conforming XML parser recovers an element's text content from serialized
element content: `<![CDATA[` opens a literal section running to the
first `]]>`; the five standard entity references decode to their
characters; any other `&` or `<`, a bare `]]>` in character data, or an
unterminated CDATA section is a parse error (`none`). The Boolean mode
is true while inside a CDATA section; the fuel (list length + 1 at the
top-level call) only forces termination, since every step consumes at
least one character. -/
def parseAux (fuel : Nat) (mode : Bool) (l : List Char) : Option (List Char) :=
  match fuel with
  | 0 => none
  | f + 1 =>
    match mode, l with
    | false, [] => some []
    | true, [] => none
    | false, c :: r =>
      if c = '<' then
        match r with
        | '!' :: '[' :: 'C' :: 'D' :: 'A' :: 'T' :: 'A' :: '[' :: r2 => parseAux f true r2
        | _ => none
      else if c = '&' then
        match matchEntity r with
        | some (d, r2) => (parseAux f false r2).map (d :: ·)
        | none => none
      else if c = ']' then
        match r with
        | ']' :: '>' :: _ => none
        | _ => (parseAux f false r).map (c :: ·)
      else (parseAux f false r).map (c :: ·)
    | true, c :: r =>
      if c = ']' then
        match r with
        | ']' :: '>' :: r2 => parseAux f false r2
        | _ => (parseAux f true r).map (c :: ·)
      else (parseAux f true r).map (c :: ·)

/-- Re-parse serialized element content back into the element's text. -/
def parseContent (s : String) : Option String :=
  (parseAux (s.toList.length + 1) false s.toList).map List.asString

/-- Which step of the save phase (lines 196-205) raised, if any:
opening the output file (`open(output_file, 'wb')`, which truncates the
file first), writing the XML declaration (line 198), computing the
serialized content (`format_element`, which raises for example on
comment nodes, whose tag is not a string), or writing the content
(line 202). -/
inductive SerializeFailure where
  | openFail
  | declFail
  | formatFail
  | contentFail
deriving Repr, DecidableEq

/-- The XML declaration written by line 198. -/
def xmlDecl : String := "<?xml version=\"1.0\" encoding=\"utf-8\"?>\n"

/-- The bytes present in the output file after the save phase of
lines 204-205, given the serialized document `content` and which step
(if any) raised: `none` when the file was never opened, otherwise the
concatenation of the writes completed before the failure. The
declaration is written before the content is computed, so a failure in
`format_element` leaves a file holding exactly the declaration. -/
def savedFileContent (failAt : Option SerializeFailure) (content : String) : Option String :=
  match failAt with
  | some .openFail => none
  | some .declFail => some ""
  | some .formatFail => some xmlDecl
  | some .contentFail => some xmlDecl
  | none => some (xmlDecl ++ content)

/-- The process exit code of the save phase: an exception from any save
step reaches the handler of lines 208-210 (`sys.exit(1)`); success
returns normally (exit 0). -/
def saveExitCode (failAt : Option SerializeFailure) : Nat :=
  match failAt with
  | none => 0
  | some _ => 1

/-- Modelled from the spec (§3 invariant, for comparison with the code's
`unitUntranslated`): a unit is translated iff its target child exists and
its text contains at least one non-whitespace character. -/
def specTranslatedCriterion (u : TransUnit) : Bool :=
  match u.targets.head? with
  | some t =>
    match t.text with
    | some s => s.toList.any fun c => !pyIsSpaceChar c
    | none => false
  | none => false

/-! ## Helper lemmas -/

theorem all_eq_not_any_not (l : List Char) (p : Char → Bool) :
    l.all p = !l.any fun c => !p c := by
  induction l with
  | nil => rfl
  | cons c r ih => cases hp : p c <;> simp [List.all_cons, List.any_cons, hp, ih]

theorem countP_and_not_add (l : List α) (p q : α → Bool) :
    l.countP (fun a => p a && !q a) + l.countP (fun a => p a && q a) = l.countP p := by
  induction l with
  | nil => rfl
  | cons a l ih =>
    by_cases hp : p a <;> by_cases hq : q a <;>
      simp [List.countP_cons, hp, hq] <;> omega

theorem analyze_foldl (us : List TransUnit) (st : Stats) :
    us.foldl analyzeStep st =
      ⟨st.total + us.countP (fun u => truthyOpt u.resname),
       st.untranslated + us.countP (fun u => truthyOpt u.resname && unitUntranslated u),
       st.translated + us.countP (fun u => truthyOpt u.resname && !unitUntranslated u)⟩ := by
  induction us generalizing st with
  | nil => simp [List.countP_nil]
  | cons u us ih =>
    rw [List.foldl_cons, ih]
    unfold analyzeStep
    by_cases h1 : truthyOpt u.resname <;> by_cases h2 : unitUntranslated u <;>
      simp [List.countP_cons, h1, h2, Stats.mk.injEq] <;> omega

theorem commitPairs_nil (force : Bool) (trs : List String) :
    commitPairs force [] trs = [] := by
  simp [commitPairs]

theorem commitPairs_nil_trs (force : Bool) (pairs : List (TransUnit × String)) :
    commitPairs force pairs [] = pairs.map (·.1) := by
  simp [commitPairs]

theorem commitPairs_cons (force : Bool) (p : TransUnit × String)
    (ps : List (TransUnit × String)) (t : String) (ts : List String) :
    commitPairs force (p :: ps) (t :: ts) =
      commitUnit force p.1 t :: commitPairs force ps ts := by
  simp [commitPairs]

theorem commitPairs_length (force : Bool) :
    ∀ (pairs : List (TransUnit × String)) (trs : List String),
      (commitPairs force pairs trs).length = pairs.length := by
  intro pairs
  induction pairs with
  | nil => intro trs; simp [commitPairs_nil]
  | cons p ps ih =>
    intro trs
    cases trs with
    | nil => simp [commitPairs_nil_trs]
    | cons t ts => simp [commitPairs_cons, ih]

theorem commitPairs_getElem?_of_le (force : Bool) :
    ∀ (pairs : List (TransUnit × String)) (trs : List String) (i : Nat),
      trs.length ≤ i →
      (commitPairs force pairs trs)[i]? = (pairs.map (·.1))[i]? := by
  intro pairs
  induction pairs with
  | nil => intro trs i _; simp [commitPairs_nil]
  | cons p ps ih =>
    intro trs i hi
    cases trs with
    | nil => rw [commitPairs_nil_trs]
    | cons t ts =>
      cases i with
      | zero => simp at hi
      | succ j =>
        rw [commitPairs_cons, List.map_cons, List.getElem?_cons_succ,
          List.getElem?_cons_succ]
        exact ih ts j (by simpa using hi)

theorem commitPairs_take (force : Bool) :
    ∀ (pairs : List (TransUnit × String)) (trs : List String),
      commitPairs force pairs trs = commitPairs force pairs (trs.take pairs.length) := by
  intro pairs
  induction pairs with
  | nil => intro trs; simp [commitPairs_nil]
  | cons p ps ih =>
    intro trs
    cases trs with
    | nil => simp
    | cons t ts =>
      rw [List.length_cons, List.take_succ_cons, commitPairs_cons, commitPairs_cons,
        ← ih ts]

theorem chunkListAux_map_length (n : Nat) :
    ∀ (fuel : Nat) (l : List α),
      (chunkListAux n fuel l).map List.length = chunkLensAux n fuel l.length := by
  intro fuel
  induction fuel with
  | zero => intro l; rfl
  | succ f ih =>
    intro l
    cases l with
    | nil => rfl
    | cons x r =>
      simp [chunkListAux, chunkLensAux, ih, List.length_take, List.length_drop]

theorem chunkListAux_flatten (n : Nat) (hn : 0 < n) :
    ∀ (fuel : Nat) (l : List α), l.length ≤ fuel →
      (chunkListAux n fuel l).flatten = l := by
  intro fuel
  induction fuel with
  | zero =>
    intro l hl
    rw [List.length_eq_zero.mp (Nat.le_zero.mp hl)]
    rfl
  | succ f ih =>
    intro l hl
    cases l with
    | nil => rfl
    | cons x r =>
      have hrec : ((x :: r).drop n).length ≤ f := by
        rw [List.length_drop]
        simp only [List.length_cons] at hl ⊢
        omega
      simp only [chunkListAux, List.flatten_cons, ih _ hrec]
      exact List.take_append_drop n (x :: r)

theorem chunkList_map_length (n : Nat) (l : List α) :
    (chunkList n l).map List.length = chunkLens n l.length :=
  chunkListAux_map_length n l.length l

theorem chunkList_flatten (n : Nat) (hn : 0 < n) (l : List α) :
    (chunkList n l).flatten = l :=
  chunkListAux_flatten n hn l.length l le_rfl

theorem unescapeAux_no_amp :
    ∀ (f : Nat) (l : List Char), l.length ≤ f → '&' ∉ l → unescapeAux f l = l := by
  intro f
  induction f with
  | zero =>
    intro l hl _
    rw [List.length_eq_zero.mp (Nat.le_zero.mp hl)]
    rfl
  | succ f ih =>
    intro l hl h
    cases l with
    | nil => rfl
    | cons c r =>
      have hc : c ≠ '&' := by
        intro hceq
        exact h (hceq ▸ List.mem_cons_self c r)
      have hr : '&' ∉ r := fun hm => h (List.mem_cons_of_mem c hm)
      simp only [unescapeAux, if_neg hc]
      rw [ih r (by simpa using Nat.le_of_succ_le_succ (by simpa using hl)) hr]

theorem unescapeList_no_amp (l : List Char) (h : '&' ∉ l) : unescapeList l = l :=
  unescapeAux_no_amp l.length l le_rfl h

theorem hasCDEnd_cons_false {c : Char} {r : List Char}
    (h : hasCDEnd (c :: r) = false) : hasCDEnd r = false := by
  simp only [hasCDEnd] at h
  by_cases hc : c = ']'
  · rw [if_pos hc] at h
    split at h
    · exact absurd h (by simp)
    · exact h
  · rwa [if_neg hc] at h

theorem parseAux_true_cons_of_not (f : Nat) (c : Char) (r : List Char)
    (h : ¬(c = ']' ∧ ∃ r2, r = ']' :: '>' :: r2)) :
    parseAux (f + 1) true (c :: r) = (parseAux f true r).map (c :: ·) := by
  simp only [parseAux]
  by_cases hc : c = ']'
  · rw [if_pos hc]
    split
    · rename_i r2
      exact absurd ⟨hc, r2, rfl⟩ h
    · rfl
  · rw [if_neg hc]

theorem parse_cdata :
    ∀ (t : List Char) (f : Nat), hasCDEnd t = false → t.length + 4 ≤ f →
      parseAux f true (t ++ [']', ']', '>']) = some t := by
  intro t
  induction t with
  | nil =>
    intro f _ hf
    match f, hf with
    | f' + 4, _ => rfl
  | cons c t' ih =>
    intro f h hf
    have h' : hasCDEnd t' = false := hasCDEnd_cons_false h
    match f, hf with
    | f' + 1, hf =>
      have hnot : ¬(c = ']' ∧ ∃ r2, t' ++ [']', ']', '>'] = ']' :: '>' :: r2) := by
        rintro ⟨rfl, r2, hr⟩
        rcases t' with _ | ⟨x, t2⟩
        · simp at hr
        rcases t2 with _ | ⟨y, t3⟩
        · simp at hr
        · rw [List.cons_append, List.cons_append] at hr
          rw [List.cons_eq_cons] at hr
          obtain ⟨hx, hr2⟩ := hr
          rw [List.cons_eq_cons] at hr2
          obtain ⟨hy, _⟩ := hr2
          subst hx
          subst hy
          simp [hasCDEnd] at h
      rw [List.cons_append, parseAux_true_cons_of_not f' c _ hnot,
        ih f' h' (by simpa using Nat.le_of_succ_le_succ (by simpa using hf))]
      rfl

theorem toList_append (a b : String) : (a ++ b).toList = a.toList ++ b.toList := rfl

/-! ## The claims -/

/-- C8 (confirmed). Locale inference: with no explicit locale the target
locale is the last dot-separated segment of the filename stem
(`strings.fr.xlf` resolves to `fr`); when the stem has no such segment
(`strings.xlf`) the run fails with the configuration error (`ValueError`
→ exit 1) before any oracle call (zero calls). -/
theorem c8_locale_inference :
    extract_language_from_filename "strings.fr.xlf" = some "fr" ∧
    extract_language_from_filename "strings.xlf" = none ∧
    resolve_lang "strings.fr.xlf" none = some "fr" ∧
    (∀ (force confirm : Bool) (oracle : List String → Option String) (doc : List TransUnit),
      process_xlf_file "strings.xlf" none force confirm oracle doc = (.langError, 0)) ∧
    runExitCode .langError ≠ 0 := by
  refine ⟨by decide, by decide, by decide, ?_, by decide⟩
  intro force confirm oracle doc
  rfl

/-- C3 (confirmed). Write gate: with `force = false`, a unit whose first
target holds non-empty, not-all-whitespace text at write time is left
completely unchanged by the commit step, even when a translation was
returned for it — the gate is evaluated at write time inside
`commitUnit`. -/
theorem c3_write_gate (u : TransUnit) (t : Elem) (rest : List Elem) (s tr : String)
    (htargets : u.targets = t :: rest) (htext : t.text = some s)
    (hne : (s.toList.isEmpty || pyIsSpace s) = false) :
    commitUnit false u tr = u := by
  have hg : gateAllows false t.text = false := by
    rw [htext]
    unfold gateAllows
    rw [Bool.or_false]
    exact hne
  obtain ⟨rn, src, targets⟩ := u
  simp only at htargets
  subst htargets
  simp [commitUnit, hg]

/-- Witness for C3 at a concrete unit with target text `Hola`. -/
theorem c3_write_gate_witness :
    commitUnit false ⟨some "k", none, [⟨"target", some "Hola"⟩]⟩ "New" =
      ⟨some "k", none, [⟨"target", some "Hola"⟩]⟩ :=
  c3_write_gate ⟨some "k", none, [⟨"target", some "Hola"⟩]⟩ ⟨"target", some "Hola"⟩ []
    "Hola" "New" rfl rfl (by decide)

/-- C10 (confirmed). Target-child creation: committing a translation to a
unit with no target child creates and appends exactly one new namespaced
`target` element, and the fresh element (empty at creation) passes the
write gate, so it receives the translation; a unit with an existing
target never gains another one. Hence every committed unit has
`max 1 (original target count)` targets. -/
theorem c10_target_creation (force : Bool) (u : TransUnit) (tr : String) :
    (commitUnit force u tr).targets.length = max 1 u.targets.length ∧
    ((commitUnit force u tr).targets.map Elem.tag =
      if u.targets.isEmpty then [nsTargetTag] else u.targets.map Elem.tag) ∧
    commitUnit force { u with targets := [] } tr =
      { u with targets := [⟨nsTargetTag, some (wrapCdataIfMarkup tr)⟩] } := by
  obtain ⟨rn, src, targets⟩ := u
  refine ⟨?_, ?_, by simp [commitUnit, gateAllows]⟩ <;>
    cases targets with
    | nil => simp [commitUnit, gateAllows]
    | cons t rest =>
      by_cases hg : gateAllows force t.text <;>
        simp [commitUnit, hg, Nat.max_eq_right (Nat.succ_le_succ (Nat.zero_le _))]

/-- C6 (corrected, amended form). If any step of the save phase raises,
the process exits with code 1 and the serialized document content never
reaches the output file; but the file may by then already have been
created/truncated and hold the XML declaration, which was written before
the content was computed. -/
theorem c6_serialize_amended (fl : SerializeFailure) (content : String) :
    saveExitCode (some fl) = 1 ∧
    (savedFileContent (some fl) content = none ∨
     savedFileContent (some fl) content = some "" ∨
     savedFileContent (some fl) content = some xmlDecl) := by
  cases fl <;> simp [saveExitCode, savedFileContent]

/-- Counterexample for C6 as stated: when `format_element` raises (e.g.
on a comment node, whose tag is not a string), the process exits 1 but
the output file holds the non-empty XML declaration — output file
content HAS been produced. -/
theorem c6_counterexample :
    saveExitCode (some .formatFail) = 1 ∧
    savedFileContent (some .formatFail) "<xliff></xliff>" = some xmlDecl ∧
    xmlDecl ≠ "" := by
  exact ⟨rfl, rfl, by decide⟩

/-- C2 (corrected, amended form). Analyzer classification: a unit is
counted at all iff its `resname` attribute is present and non-empty (not
iff its source text is non-empty); among counted units, it is counted
translated iff its target child exists and its text contains at least
one non-whitespace character (the spec's §3 invariant), otherwise
untranslated; and `translated + untranslated = total` for every
document. -/
theorem c2_analyze_amended :
    (∀ u : TransUnit, unitUntranslated u = !specTranslatedCriterion u) ∧
    ∀ us : List TransUnit,
      (analyze_strings us).total = us.countP (fun u => truthyOpt u.resname) ∧
      (analyze_strings us).untranslated =
        us.countP (fun u => truthyOpt u.resname && !specTranslatedCriterion u) ∧
      (analyze_strings us).translated =
        us.countP (fun u => truthyOpt u.resname && specTranslatedCriterion u) ∧
      (analyze_strings us).translated + (analyze_strings us).untranslated =
        (analyze_strings us).total := by
  have hcrit : ∀ u : TransUnit, unitUntranslated u = !specTranslatedCriterion u := by
    intro u
    obtain ⟨rn, src, targets⟩ := u
    unfold unitUntranslated specTranslatedCriterion
    cases targets with
    | nil => rfl
    | cons t rest =>
      obtain ⟨ttag, ttext⟩ := t
      cases ttext with
      | none => rfl
      | some s =>
        simp only [List.head?_cons]
        cases hl : s.toList with
        | nil =>
          simp only [String.toList] at hl
          simp [pyIsSpace, String.toList, hl]
        | cons c r =>
          simp only [String.toList] at hl
          simp [pyIsSpace, String.toList, hl, all_eq_not_any_not, List.any_cons,
            Bool.not_or, Bool.not_not]
  refine ⟨hcrit, fun us => ?_⟩
  have h := analyze_foldl us ⟨0, 0, 0⟩
  have e1 : (analyze_strings us).total = us.countP fun u => truthyOpt u.resname := by
    unfold analyze_strings
    rw [h]
    simp
  have e2 : (analyze_strings us).untranslated =
      us.countP fun u => truthyOpt u.resname && unitUntranslated u := by
    unfold analyze_strings
    rw [h]
    simp
  have e3 : (analyze_strings us).translated =
      us.countP fun u => truthyOpt u.resname && !unitUntranslated u := by
    unfold analyze_strings
    rw [h]
    simp
  have hcongr : us.countP (fun u => truthyOpt u.resname && unitUntranslated u) =
      us.countP (fun u => truthyOpt u.resname && !specTranslatedCriterion u) :=
    List.countP_congr fun u _ => by rw [hcrit u]
  have hcongr' : us.countP (fun u => truthyOpt u.resname && !unitUntranslated u) =
      us.countP (fun u => truthyOpt u.resname && specTranslatedCriterion u) :=
    List.countP_congr fun u _ => by rw [hcrit u, Bool.not_not]
  refine ⟨e1, by rw [e2, hcongr], by rw [e3, hcongr'], ?_⟩
  rw [e1, e2, e3]
  exact countP_and_not_add us (fun u => truthyOpt u.resname) unitUntranslated

/-- Counterexample for C2 as stated: a unit with non-empty source text
`hello` and no target child is untranslated per the §3 invariant, yet
analysis does not classify it at all (zero total, zero untranslated),
because classification is keyed on the `resname` attribute. -/
theorem c2_counterexample :
    ((⟨none, some ⟨"source", some "hello"⟩, []⟩ : TransUnit).source.map Elem.text) =
      some (some "hello") ∧
    "hello" ≠ "" ∧
    unitUntranslated ⟨none, some ⟨"source", some "hello"⟩, []⟩ = true ∧
    analyze_strings [⟨none, some ⟨"source", some "hello"⟩, []⟩] = ⟨0, 0, 0⟩ := by
  exact ⟨rfl, by decide, rfl, rfl⟩

/-- C4 (confirmed). Alignment assumption: committing a batch never
validates the response line count — the result is always defined (no
error, no abort) with one output unit per batch unit; units at positions
at or past the number of returned lines keep their original value
(trailing units receive no translation when there are fewer lines), and
lines past the number of units are silently discarded; `translate_batch`
itself returns the split lines of any successful response, whatever
their number. -/
theorem c4_alignment (force : Bool) (pairs : List (TransUnit × String)) (trs : List String) :
    (commitPairs force pairs trs).length = pairs.length ∧
    (∀ i, trs.length ≤ i → (commitPairs force pairs trs)[i]? = (pairs.map (·.1))[i]?) ∧
    commitPairs force pairs trs = commitPairs force pairs (trs.take pairs.length) ∧
    ∀ (oracle : List String → Option String) (texts : List String) (r : String),
      oracle texts = some r →
      translate_batch oracle texts = some (pySplit (Char.ofNat 10) (pyStrip r)) := by
  refine ⟨commitPairs_length force pairs trs,
    fun i hi => commitPairs_getElem?_of_le force pairs trs i hi,
    commitPairs_take force pairs trs, fun oracle texts r hr => ?_⟩
  unfold translate_batch
  rw [hr]

/-- Witness for C4: a batch of two units receiving a single response
line; the second unit is untouched and an oversized response is cut to
the batch size. -/
theorem c4_alignment_witness :
    (commitPairs false [(⟨some "a", none, []⟩, "sa"), (⟨some "b", none, []⟩, "sb")]
        ["ta"]).length = 2 ∧
    (commitPairs false [(⟨some "a", none, []⟩, "sa"), (⟨some "b", none, []⟩, "sb")]
        ["ta"])[1]? = some ⟨some "b", none, []⟩ ∧
    commitPairs false [(⟨some "a", none, []⟩, "sa")] ["ta", "tb", "tc"] =
      commitPairs false [(⟨some "a", none, []⟩, "sa")] ["ta"] ∧
    translate_batch (fun _ => some "uno\ndos") ["sa"] = some ["uno", "dos"] := by
  refine ⟨(c4_alignment false _ _).1,
    ?_,
    ?_,
    (c4_alignment false [(⟨some "a", none, []⟩, "sa")] []).2.2.2
      (fun _ => some "uno\ndos") ["sa"] "uno\ndos" rfl⟩
  · rw [(c4_alignment false [(⟨some "a", none, []⟩, "sa"), (⟨some "b", none, []⟩, "sb")]
      ["ta"]).2.1 1 (by decide)]
    rfl
  · exact (c4_alignment false [(⟨some "a", none, []⟩, "sa")] ["ta", "tb", "tc"]).2.2.1

/-- C9 (confirmed). Batch chunking: a worklist of 23 units with batch
size 10 produces exactly 3 oracle calls, whose requests carry 10, 10 and
3 source texts respectively, the chunks being consecutive slices of the
worklist in original order (their concatenation is the worklist). -/
theorem c9_batch_chunking (wl : List (TransUnit × String)) (hlen : wl.length = 23)
    (force : Bool) (oracle : List String → Option String) :
    (chunkList BATCH_SIZE wl).length = 3 ∧
    (chunkList BATCH_SIZE wl).map List.length = [10, 10, 3] ∧
    (chunkList BATCH_SIZE wl).flatten = wl ∧
    (runBatches force oracle wl).2 = 3 ∧
    (oracleRequests wl).map List.length = [10, 10, 3] ∧
    (oracleRequests wl).flatten = wl.map (·.2) := by
  have hml : (chunkList BATCH_SIZE wl).map List.length = [10, 10, 3] := by
    rw [chunkList_map_length, hlen]
    rfl
  have hcs : (chunkList BATCH_SIZE wl).length = 3 := by
    have := congrArg List.length hml
    simpa using this
  have hfl : (chunkList BATCH_SIZE wl).flatten = wl :=
    chunkList_flatten BATCH_SIZE (by decide) wl
  refine ⟨hcs, hml, hfl, hcs, ?_, ?_⟩
  · unfold oracleRequests
    rw [List.map_map]
    have : (List.length ∘ fun c : List (TransUnit × String) => c.map (·.2)) =
        List.length := by
      funext c
      simp
    rw [this, hml]
  · unfold oracleRequests
    rw [← List.map_flatten, hfl]

/-- Witness for C9 at a concrete worklist of 23 entries. -/
theorem c9_batch_chunking_witness :
    (runBatches false (fun _ => none)
      (List.replicate 23 ((⟨none, none, []⟩ : TransUnit), "s"))).2 = 3 :=
  (c9_batch_chunking (List.replicate 23 ((⟨none, none, []⟩ : TransUnit), "s"))
    (by simp) false (fun _ => none)).2.2.2.1

/-- C5 (confirmed). Idempotence / early stop: whenever analysis reports
zero untranslated units (in particular when every counted unit is
already translated) and `force` is off, the run returns the early-stop
outcome with zero oracle calls, before the confirmation prompt and
before any oracle contact, and this outcome is a normal return
(exit code 0), not an error. -/
theorem c5_early_stop (filename : String) (langOpt : Option String) (confirm : Bool)
    (oracle : List String → Option String) (doc : List TransUnit)
    (hlang : resolve_lang filename langOpt ≠ none)
    (hzero : (analyze_strings doc).untranslated = 0) :
    process_xlf_file filename langOpt false confirm oracle doc = (.earlyStop, 0) ∧
    runExitCode .earlyStop = 0 := by
  refine ⟨?_, rfl⟩
  unfold process_xlf_file
  cases hr : resolve_lang filename langOpt with
  | none => exact absurd hr hlang
  | some lang => simp [hzero]

/-- Witness for C5: a fully translated one-unit document; the second run
makes zero oracle calls. -/
theorem c5_early_stop_witness :
    process_xlf_file "messages.es.xlf" none false true (fun _ => some "X")
      [⟨some "k", some ⟨"source", some "hi"⟩, [⟨"target", some "Hola"⟩]⟩] =
      (.earlyStop, 0) :=
  (c5_early_stop "messages.es.xlf" none true (fun _ => some "X")
    [⟨some "k", some ⟨"source", some "hi"⟩, [⟨"target", some "Hola"⟩]⟩]
    (by decide) (by decide)).1

/-- C7 (confirmed). Oracle failure containment: a batch whose oracle
call fails (raises, modelled by `none`) commits no translation to any of
its units — they come out exactly as they went in — and the batch loop
still performs exactly one call per chunk of the whole worklist (the
failed batch is not retried, later batches still run, the run is not
aborted). -/
theorem c7_oracle_failure (force : Bool) (oracle : List String → Option String)
    (chunk : List (TransUnit × String)) (wl : List (TransUnit × String))
    (hfail : oracle (chunk.map (·.2)) = none) :
    runChunk force oracle chunk = chunk.map (·.1) ∧
    (runBatches force oracle wl).2 = (chunkList BATCH_SIZE wl).length := by
  refine ⟨?_, rfl⟩
  unfold runChunk translate_batch
  rw [hfail]

/-- Witness for C7: a one-unit batch with an always-failing oracle. -/
theorem c7_oracle_failure_witness :
    runChunk false (fun _ => none) [((⟨some "k", none, []⟩ : TransUnit), "hi")] =
      [⟨some "k", none, []⟩] :=
  (c7_oracle_failure false (fun _ => none) [((⟨some "k", none, []⟩ : TransUnit), "hi")]
    [] rfl).1

/-- C1 (corrected, amended form). Round-trip of markup-bearing target
text: for every target text that contains an angle bracket but no `&`
(no entity references) and no `]]>` — in particular the text `<b>hi</b>`
itself — serialization demarcates the text as a literal CDATA block
(both at the text and at the element level), and re-parsing the
serialized content yields the identical string back. For texts
containing entity references the serializer's unescape step changes the
text first, so the round-trip identity of the original claim fails
(see the counterexample). -/
theorem c1_roundtrip_amended (t : String)
    (hamp : '&' ∉ t.toList) (hcd : hasCDEnd t.toList = false)
    (hmark : (pyInStr '<' t || pyInStr '>' t) = true) :
    formatTargetText t = "<![CDATA[" ++ t ++ "]]>" ∧
    parseContent (formatTargetText t) = some t ∧
    formatTargetElement (some t) =
      "<target>" ++ ("<![CDATA[" ++ t ++ "]]>") ++ "</target>" := by
  have hu : unescape t = t := by
    unfold unescape
    rw [unescapeList_no_amp t.toList hamp]
    rfl
  have hfmt : formatTargetText t = "<![CDATA[" ++ t ++ "]]>" := by
    unfold formatTargetText
    rw [hu, if_pos hmark]
  have hlist : ("<![CDATA[" ++ t ++ "]]>").toList =
      '<' :: '!' :: '[' :: 'C' :: 'D' :: 'A' :: 'T' :: 'A' :: '[' ::
        (t.toList ++ [']', ']', '>']) := by
    rw [toList_append, toList_append, List.append_assoc]
    rfl
  have hparse : parseContent ("<![CDATA[" ++ t ++ "]]>") = some t := by
    unfold parseContent
    rw [hlist]
    have hlen : ('<' :: '!' :: '[' :: 'C' :: 'D' :: 'A' :: 'T' :: 'A' :: '[' ::
        (t.toList ++ [']', ']', '>'])).length + 1 = t.toList.length + 13 := by
      simp
    rw [hlen]
    have hstep : parseAux (t.toList.length + 13) false
        ('<' :: '!' :: '[' :: 'C' :: 'D' :: 'A' :: 'T' :: 'A' :: '[' ::
          (t.toList ++ [']', ']', '>'])) =
        parseAux (t.toList.length + 12) true (t.toList ++ [']', ']', '>']) := rfl
    rw [hstep, parse_cdata t.toList (t.toList.length + 12) hcd (by omega)]
    rfl
  have hne : t.toList.isEmpty = false := by
    cases hl : t.toList with
    | nil =>
      unfold pyInStr at hmark
      rw [hl] at hmark
      simp at hmark
    | cons c r => rfl
  refine ⟨hfmt, by rw [hfmt]; exact hparse, ?_⟩
  simp only [formatTargetElement, hne, Bool.false_eq_true, if_false, hfmt]

/-- Witness for the amended C1 at the text `<b>hi</b>`. -/
theorem c1_roundtrip_witness :
    formatTargetText "<b>hi</b>" = "<![CDATA[<b>hi</b>]]>" ∧
    parseContent (formatTargetText "<b>hi</b>") = some "<b>hi</b>" ∧
    formatTargetElement (some "<b>hi</b>") = "<target><![CDATA[<b>hi</b>]]></target>" := by
  have h := c1_roundtrip_amended "<b>hi</b>" (by decide) (by decide) (by decide)
  exact ⟨h.1.trans (by decide), h.2.1, h.2.2.trans (by decide)⟩

/-- Counterexample for C1 as stated: the target text `&amp;<b>hi</b>`
contains `<b>hi</b>`, but the serializer unescapes it to `&<b>hi</b>`
before wrapping, so re-parsing the serialized output yields
`&<b>hi</b>` — neither the original text nor `<b>hi</b>`. -/
theorem c1_counterexample :
    ("&amp;<b>hi</b>" : String) = "&amp;" ++ "<b>hi</b>" ∧
    formatTargetText "&amp;<b>hi</b>" = "<![CDATA[&<b>hi</b>]]>" ∧
    parseContent (formatTargetText "&amp;<b>hi</b>") = some "&<b>hi</b>" ∧
    ("&<b>hi</b>" : String) ≠ "&amp;<b>hi</b>" ∧
    ("&<b>hi</b>" : String) ≠ "<b>hi</b>" := by
  decide

end XlfTranslate
